import Mathlib

/-!
# Verification of the PAS inventory backend

Shallow embedding of the PAS rack-inventory backend (Express/Mongoose
controllers) and proofs of the specification's claims about it.

The embedding models MongoDB ObjectIds as strings (`isValidObjectId` checks
the canonical 24-hex-digit form, as `mongoose.Types.ObjectId.isValid` does for
string inputs), collections as Lean lists, and each Express handler as a pure
function from the database state and request data to a response plus the new
database state.  Mongoose session transactions are modelled by staging the
writes and applying them only at commit; a `failAt` argument injects a store
failure at a given step, which the handler's catch block answers with
`abortTransaction` (discarding the staged writes).  Aggregation `$lookup` +
`$unwind` stages with `preserveNullAndEmptyArrays: true` are modelled
faithfully: a rack with k matching master descriptions yields k result rows
(one row with null fields when k = 0).  The trailing `$sort` stage of the
rack list pipeline only permutes rows and is omitted; the claims below
quantify over row membership, which the sort does not affect.
-/

namespace PAS

/-- MongoDB ObjectIds are carried as strings; handlers compare them with
`toString()` equality, which string equality models. -/
abbrev ObjectId := String

def isHexChar (c : Char) : Bool :=
  c.isDigit || ('a' ≤ c && c ≤ 'f') || ('A' ≤ c && c ≤ 'F')

/-- `mongoose.Types.ObjectId.isValid` on a string: 24 hexadecimal digits. -/
def isValidObjectId (s : String) : Bool :=
  s.length == 24 && s.data.all isHexChar

/-- The three user roles of the system. -/
inductive Role
  | admin
  | team_leader
  | team_member
deriving DecidableEq, Repr

/-- `models/User`: the fields the embedded handlers read. -/
structure User where
  _id : ObjectId
  role : Role
  email : String := ""
deriving DecidableEq, Repr

/-- `models/Team`: the fields the embedded handlers read.  `status` is the
schema's string enum (values "Active" / "Completed"). -/
structure Team where
  _id : ObjectId
  siteName : String
  location : String := ""
  description : String := ""
  isNewSite : Bool := false
  teamLeader : Option ObjectId := none
  members : List ObjectId := []
  status : String := "Active"
deriving DecidableEq, Repr

/-- `models/Rack.js`. -/
structure Rack where
  _id : ObjectId
  rackNo : String
  partNo : String
  mrp : Option Int := none
  nextQty : Int
  location : String
  siteName : String
  scannedBy : ObjectId
  team : ObjectId
  masterDescription : Option String := none
  ndp : Option Int := none
deriving DecidableEq, Repr

/-- `models/Materialdesc` rows.  `uploadBatch` / `fileId` are the batch
linkage written by `uploadMasterDescriptions`; `uploadedFileId` is the legacy
linkage field that `deleteUploadedFile`'s query also matches. -/
structure MasterDescription where
  partNo : String
  description : String
  ndp : Int := 0
  mrp : Int := 0
  uploadBatch : Option String := none
  fileId : Option ObjectId := none
  uploadedFileId : Option ObjectId := none
deriving DecidableEq, Repr

/-- `models/uploadmetadata` ledger entries. -/
structure UploadMetadata where
  _id : ObjectId
  filename : String
  totalReceived : Nat := 0
  recordCount : Nat := 0
  uploadedBy : Option ObjectId := none
deriving DecidableEq, Repr

/-- One line item of a bulk export request.  The request may carry `team`,
`siteName` and `exportedBy` values inside each item; the controller's mapping
never reads them. -/
structure SnapshotIn where
  sNo : Int := 0
  location : String := ""
  rackNo : String := ""
  partNo : String := ""
  nextQty : Int := 0
  mrp : Option Int := none
  ndp : Option Int := none
  materialDescription : String := ""
  team : Option ObjectId := none
  siteName : Option String := none
  exportedBy : Option ObjectId := none
deriving DecidableEq, Repr

/-- `models/ExportedRack` snapshot rows. -/
structure ExportedSnapshot where
  sNo : Int
  location : String
  rackNo : String
  partNo : String
  nextQty : Int
  mrp : Option Int := none
  ndp : Option Int := none
  materialDescription : String := ""
  team : ObjectId
  siteName : String
  exportedBy : ObjectId
deriving DecidableEq, Repr

/-- The document store: one list per collection. -/
structure DB where
  users : List User := []
  teams : List Team := []
  racks : List Rack := []
  masterdescs : List MasterDescription := []
  uploadmeta : List UploadMetadata := []
  snapshots : List ExportedSnapshot := []
deriving DecidableEq, Repr

/-- The `res.status(n).json({success, message, ...})` envelope. -/
structure ApiResponse where
  status : Nat
  success : Bool
  message : String := ""
deriving DecidableEq, Repr

/-- JavaScript falsiness of an optional string field (`undefined`, `null`
and `""` are all falsy). -/
def strFalsy : Option String → Bool
  | none => true
  | some s => s.isEmpty

/-- `authMiddleware.authorize(roles)`: role-list gate applied by the router
before the controller runs. -/
def authorize (roles : List Role) (user : User) : Bool :=
  roles.contains user.role

/-- `teamcontroller.isTeamLeaderOrAdmin`. -/
def isTeamLeaderOrAdmin (user : User) (team : Team) : Bool :=
  user.role == Role.admin ||
    (user.role == Role.team_leader && team.teamLeader == some user._id)

/-! ## Rack controller (`rackcontroller.js`) -/

/-- Mutating rack endpoints: response, the rack returned as `data` (if any),
and the database after the call. -/
structure RackMutResult where
  resp : ApiResponse
  data : Option Rack := none
  db : DB
deriving DecidableEq, Repr

/-- The body of a rack create request (`req.body`); absent fields are
`undefined`, modelled as `none`. -/
structure RackCreateBody where
  rackNo : Option String := none
  partNo : Option String := none
  nextQty : Option Int := none
  siteName : Option String := none
  location : Option String := none
deriving DecidableEq, Repr

/-- `rackcontroller.createRack`.  `newId` stands for the ObjectId the store
generates for the inserted document. -/
def createRack (db : DB) (user : User) (b : RackCreateBody) (newId : ObjectId) :
    RackMutResult :=
  if strFalsy b.rackNo || strFalsy b.partNo || b.nextQty.isNone ||
      strFalsy b.siteName || strFalsy b.location then
    ⟨⟨400, false, "Please provide rackNo, partNo, mrp, nextQty, siteName, and location."⟩,
      none, db⟩
  else
    let rackNo := b.rackNo.getD ""
    let partNo := b.partNo.getD ""
    let siteName := b.siteName.getD ""
    match db.teams.find? (fun t => t.siteName == siteName) with
    | none => ⟨⟨404, false, "Team with this siteName not found."⟩, none, db⟩
    | some team =>
      let isAdmin := user.role == Role.admin
      let isTeamLeader := user.role == Role.team_leader &&
        team.teamLeader == some user._id
      let isTeamMember := user.role == Role.team_member &&
        team.members.contains user._id
      if !(isAdmin || isTeamLeader || isTeamMember) then
        ⟨⟨403, false, "Not authorized to create rack for this team."⟩, none, db⟩
      else
        -- the duplicate pre-check queries { partNo, rackNo } with no siteName
        match db.racks.find? (fun r => r.partNo == partNo && r.rackNo == rackNo) with
        | some _ =>
          ⟨⟨400, false, "PartNumber  already exists for this Rack."⟩, none, db⟩
        | none =>
          let newRack : Rack :=
            { _id := newId, rackNo, partNo, nextQty := b.nextQty.getD 0,
              location := b.location.getD "", siteName,
              scannedBy := user._id, team := team._id }
          ⟨⟨201, true, "Rack created successfully"⟩, some newRack,
            { db with racks := db.racks ++ [newRack] }⟩

/-- One row of the rack aggregation output: the rack with the joined-in
material, team and scanning-user documents overlaid. -/
structure RackRow where
  rack : Rack
  materialDescription : Option String := none
  ndp : Option Int := none
  mrp : Option Int := none
  teamDoc : Option Team := none
  scannedByDoc : Option User := none
deriving DecidableEq, Repr

/-- One output row of the pipeline for rack `r` joined against material `m`
(`$addFields` overlay, then `$lookup`/`$unwind` of team and scannedBy). -/
def rackRowOf (db : DB) (r : Rack) (m : Option MasterDescription) : RackRow :=
  { rack := r,
    materialDescription := m.map (fun d => d.description),
    ndp := m.map (fun d => d.ndp),
    mrp := m.map (fun d => d.mrp),
    teamDoc := db.teams.find? (fun t => t._id == r.team),
    scannedByDoc := db.users.find? (fun u => u._id == r.scannedBy) }

/-- `$lookup` of masterdescriptions by `partNo` followed by `$unwind` with
`preserveNullAndEmptyArrays: true`: k matches yield k rows, zero matches
yield one row with null material fields. -/
def unwindMaterial (db : DB) (r : Rack) : List RackRow :=
  let ms := db.masterdescs.filter (fun m => m.partNo == r.partNo)
  if ms.isEmpty then [rackRowOf db r none]
  else ms.map (fun m => rackRowOf db r (some m))

/-- Result of the rack list endpoint. -/
structure RackListResult where
  resp : ApiResponse
  count : Nat := 0
  data : List RackRow := []
deriving DecidableEq, Repr

def rackListOk (db : DB) (pred : Rack → Bool) : RackListResult :=
  let rows := (db.racks.filter pred).flatMap (unwindMaterial db)
  ⟨⟨200, true, ""⟩, rows.length, rows⟩

/-- `rackcontroller.getRacks` with the optional `siteName` / `teamId` query
parameters.  `user?` is `req.user` (absent when authentication left none). -/
def getRacks (db : DB) (user? : Option User)
    (siteNameQ teamIdQ : Option String) : RackListResult :=
  match user? with
  | none => ⟨⟨401, false, "Not authenticated."⟩, 0, []⟩
  | some u =>
    let siteOk := fun (r : Rack) =>
      match siteNameQ with
      | some sn => r.siteName == sn
      | none => true
    match u.role with
    | Role.admin =>
      let teamOk := fun (r : Rack) =>
        match teamIdQ with
        | some tid => r.team == tid
        | none => true
      rackListOk db (fun r => teamOk r && siteOk r)
    | Role.team_leader =>
      let teamIds :=
        (db.teams.filter (fun t => t.teamLeader == some u._id)).map (fun t => t._id)
      if teamIds.isEmpty then ⟨⟨200, true, ""⟩, 0, []⟩
      else rackListOk db (fun r => teamIds.contains r.team && siteOk r)
    | Role.team_member =>
      let teamIds :=
        (db.teams.filter (fun t => t.members.contains u._id)).map (fun t => t._id)
      if teamIds.isEmpty then ⟨⟨200, true, ""⟩, 0, []⟩
      else rackListOk db (fun r => teamIds.contains r.team && siteOk r)

/-- Result of the single-rack read. -/
structure RackGetResult where
  resp : ApiResponse
  data : Option RackRow := none
deriving DecidableEq, Repr

/-- `rackcontroller.getRackById`: validity check, the same aggregation pipeline
matched on `_id`, 404 on an empty result, then the authorization check on the
first row (`racks[0]`). -/
def getRackById (db : DB) (user : User) (ridStr : String) : RackGetResult :=
  if !(isValidObjectId ridStr) then
    ⟨⟨400, false, "Invalid Rack ID."⟩, none⟩
  else
    match (db.racks.filter (fun r => r._id == ridStr)).flatMap (unwindMaterial db) with
    | [] => ⟨⟨404, false, "Rack not found."⟩, none⟩
    | row :: _ =>
      let isAdmin := user.role == Role.admin
      let isTeamLeader :=
        match row.teamDoc with
        | some t => t.teamLeader == some user._id
        | none => false
      let isTeamMember :=
        match row.teamDoc with
        | some t => t.members.contains user._id
        | none => false
      if !(isAdmin || isTeamLeader || isTeamMember) then
        ⟨⟨403, false, "Not authorized to view this rack."⟩, none⟩
      else ⟨⟨200, true, ""⟩, some row⟩

/-- A rack update body (`req.body` of `PUT /api/racks/:id`): any subset of the
schema fields may be supplied; `findByIdAndUpdate` overwrites exactly the
supplied ones. -/
structure RackUpdateBody where
  rackNo : Option String := none
  partNo : Option String := none
  nextQty : Option Int := none
  location : Option String := none
  siteName : Option String := none
  scannedBy : Option ObjectId := none
  team : Option ObjectId := none
  mrp : Option Int := none
  ndp : Option Int := none
  masterDescription : Option String := none
deriving DecidableEq, Repr

/-- The effect of `Rack.findByIdAndUpdate(rackId, req.body)` on the matched
document: each supplied body field overwrites the stored one. -/
def applyRackUpdate (r : Rack) (b : RackUpdateBody) : Rack :=
  { r with
    rackNo := b.rackNo.getD r.rackNo,
    partNo := b.partNo.getD r.partNo,
    nextQty := b.nextQty.getD r.nextQty,
    location := b.location.getD r.location,
    siteName := b.siteName.getD r.siteName,
    scannedBy := b.scannedBy.getD r.scannedBy,
    team := b.team.getD r.team,
    mrp := b.mrp <|> r.mrp,
    ndp := b.ndp <|> r.ndp,
    masterDescription := b.masterDescription <|> r.masterDescription }

/-- `rackcontroller.updateRack`.  Note the controller's `isTeamLeader` check
compares ids only (no role test), exactly as the source does. -/
def updateRack (db : DB) (user : User) (ridStr : String) (body : RackUpdateBody) :
    RackMutResult :=
  if !(isValidObjectId ridStr) then
    ⟨⟨400, false, "Invalid Rack ID."⟩, none, db⟩
  else
    match db.racks.find? (fun r => r._id == ridStr) with
    | none => ⟨⟨404, false, "Rack not found."⟩, none, db⟩
    | some rack =>
      let teamDoc := db.teams.find? (fun t => t._id == rack.team)
      let isAdmin := user.role == Role.admin
      let isTeamLeader :=
        match teamDoc with
        | some t => t.teamLeader == some user._id
        | none => false
      if !(isAdmin || isTeamLeader) then
        ⟨⟨403, false, "Not authorized to update this rack."⟩, none, db⟩
      else
        let updated := applyRackUpdate rack body
        ⟨⟨200, true, "Rack updated successfully"⟩, some updated,
          { db with racks := db.racks.map (fun r => if r._id == ridStr then updated else r) }⟩

/-- `rackcontroller.deleteRack`. -/
def deleteRack (db : DB) (user : User) (ridStr : String) : RackMutResult :=
  if !(isValidObjectId ridStr) then
    ⟨⟨400, false, "Invalid Rack ID."⟩, none, db⟩
  else
    match db.racks.find? (fun r => r._id == ridStr) with
    | none => ⟨⟨404, false, "Rack not found."⟩, none, db⟩
    | some rack =>
      let teamDoc := db.teams.find? (fun t => t._id == rack.team)
      let isAdmin := user.role == Role.admin
      let isTeamLeader :=
        match teamDoc with
        | some t => t.teamLeader == some user._id
        | none => false
      if !(isAdmin || isTeamLeader) then
        ⟨⟨403, false, "Not authorized to delete this rack."⟩, none, db⟩
      else
        ⟨⟨200, true, "Rack deleted successfully"⟩, some rack,
          { db with racks := db.racks.eraseP (fun r => r._id == ridStr) }⟩

/-- `PUT /api/racks/:id` as wired in the rack router:
`authorize(['admin', 'team_leader'])` runs before the controller. -/
def updateRackRoute (db : DB) (user : User) (ridStr : String)
    (body : RackUpdateBody) : RackMutResult :=
  if !(authorize [Role.admin, Role.team_leader] user) then
    ⟨⟨403, false, "User role is not authorized to access this route"⟩, none, db⟩
  else updateRack db user ridStr body

/-- `DELETE /api/racks/:id` as wired in the rack router. -/
def deleteRackRoute (db : DB) (user : User) (ridStr : String) : RackMutResult :=
  if !(authorize [Role.admin, Role.team_leader] user) then
    ⟨⟨403, false, "User role is not authorized to access this route"⟩, none, db⟩
  else deleteRack db user ridStr

/-- `POST /api/racks` as wired in the rack router:
`authorize(['admin', 'team_leader', 'team_member'])` then `createRack`. -/
def createRackRoute (db : DB) (user : User) (b : RackCreateBody)
    (newId : ObjectId) : RackMutResult :=
  if !(authorize [Role.admin, Role.team_leader, Role.team_member] user) then
    ⟨⟨403, false, "User role is not authorized to access this route"⟩, none, db⟩
  else createRack db user b newId

/-! ## Team controller (`teamcontroller.js`) -/

/-- Mutating team endpoints: response, the team returned as `data`/`team`
(if any), and the database after the call. -/
structure TeamMutResult where
  resp : ApiResponse
  data : Option Team := none
  db : DB
deriving DecidableEq, Repr

/-- `team.save()` after mutating the document fetched by id: the stored copy
is replaced by the mutated one. -/
def saveTeam (db : DB) (tid : ObjectId) (t' : Team) : DB :=
  { db with teams := db.teams.map (fun t => if t._id == tid then t' else t) }

/-- `teamcontroller.completeTeamWork`: clears `members`, nulls `teamLeader`
and sets `status` to `Completed`, for an admin or that team's leader. -/
def completeTeamWork (db : DB) (user : User) (tid : ObjectId) : TeamMutResult :=
  match db.teams.find? (fun t => t._id == tid) with
  | none => ⟨⟨404, false, "Team not found"⟩, none, db⟩
  | some team =>
    let isAuthorized := user.role == Role.admin ||
      (user.role == Role.team_leader && team.teamLeader == some user._id)
    if !isAuthorized then
      ⟨⟨403, false, "Not authorized to complete work for this team."⟩, none, db⟩
    else
      let team' := { team with members := [], teamLeader := none, status := "Completed" }
      ⟨⟨200, true, "Members and leader cleared, status set to Completed."⟩,
        some team', saveTeam db tid team'⟩

/-- `teamcontroller.addTeamMember`. -/
def addTeamMember (db : DB) (user : User) (tid : ObjectId) (memberId : ObjectId) :
    TeamMutResult :=
  match db.teams.find? (fun t => t._id == tid) with
  | none => ⟨⟨404, false, "Team not found"⟩, none, db⟩
  | some team =>
    if !(isTeamLeaderOrAdmin user team) then
      ⟨⟨403, false, "Not authorized to modify this team"⟩, none, db⟩
    else
      match db.users.find? (fun u => u._id == memberId) with
      | none => ⟨⟨404, false, "Member user not found"⟩, none, db⟩
      | some memberUser =>
        if memberUser.role != Role.team_member then
          ⟨⟨400, false, "Only Team Members can be added to a team."⟩, none, db⟩
        else if team.members.contains memberId then
          ⟨⟨400, false, "User is already a member of this team."⟩, none, db⟩
        else
          let team' := { team with members := team.members ++ [memberId] }
          ⟨⟨200, true, "Member added successfully"⟩, some team', saveTeam db tid team'⟩

/-- `teamcontroller.removeTeamMember`. -/
def removeTeamMember (db : DB) (user : User) (tid : ObjectId) (memberId : ObjectId) :
    TeamMutResult :=
  match db.teams.find? (fun t => t._id == tid) with
  | none => ⟨⟨404, false, "Team not found"⟩, none, db⟩
  | some team =>
    if !(isTeamLeaderOrAdmin user team) then
      ⟨⟨403, false, "Not authorized to modify this team"⟩, none, db⟩
    else
      let newMembers := team.members.filter (fun m => m != memberId)
      if newMembers.length == team.members.length then
        ⟨⟨400, false, "User is not a member of this team."⟩, none, db⟩
      else
        let team' := { team with members := newMembers }
        ⟨⟨200, true, "Member removed successfully"⟩, some team', saveTeam db tid team'⟩

/-! ## Master description upload ledger (`master_controller.js`)

The controller wraps its writes in a mongoose session transaction.  The
embedding stages the transaction's writes and applies them to the database
only at commit; the `failAt` argument injects a store failure at the named
step, which the controller's catch block answers with `abortTransaction`
(the staged writes are discarded) before the `finally` block releases the
session.  JavaScript's `finally` also runs on the early `return`, so every
exit path ends the session. -/

/-- The steps of the upload transaction at which the store may fail. -/
inductive TxStep
  | createMeta
  | insertDocs
  | stampCount
  | commitTx
deriving DecidableEq, Repr

/-- One element of the `entries` array of an upload request; `ndp`/`mrp` are
the `parseFloat` results, with `none` standing for a missing or non-numeric
value (`NaN`), which `|| 0` turns into zero. -/
structure UploadEntry where
  partNo : String := ""
  description : String := ""
  ndp : Option Int := none
  mrp : Option Int := none
deriving DecidableEq, Repr

/-- The MasterDescription row derived from one entry of batch
`(filename, fileId)`. -/
def mkUploadDoc (filename : String) (fileId : ObjectId) (e : UploadEntry) :
    MasterDescription :=
  { partNo := e.partNo, description := e.description,
    ndp := e.ndp.getD 0, mrp := e.mrp.getD 0,
    uploadBatch := some filename, fileId := some fileId }

structure UploadResult where
  resp : ApiResponse
  db : DB
  sessionEnded : Bool
deriving DecidableEq, Repr

/-- `master_controller.uploadMasterDescriptions`.  `metaId` stands for the
ObjectId the store generates for the UploadMetadata document. -/
def uploadMasterDescriptions (db : DB) (user? : Option User)
    (entries : List UploadEntry) (filename : String) (metaId : ObjectId)
    (failAt : Option TxStep) : UploadResult :=
  if entries.isEmpty then ⟨⟨400, false, "No data provided"⟩, db, true⟩
  else if failAt == some TxStep.createMeta then
    ⟨⟨500, false, "store failure"⟩, db, true⟩
  else
    let meta : UploadMetadata :=
      { _id := metaId, filename, totalReceived := entries.length,
        uploadedBy := user?.map (fun u => u._id) }
    let docs := entries.map (mkUploadDoc filename metaId)
    if failAt == some TxStep.insertDocs then ⟨⟨500, false, "store failure"⟩, db, true⟩
    else if failAt == some TxStep.stampCount then ⟨⟨500, false, "store failure"⟩, db, true⟩
    else if failAt == some TxStep.commitTx then ⟨⟨500, false, "store failure"⟩, db, true⟩
    else
      ⟨⟨201, true, "File uploaded successfully"⟩,
        { db with
          uploadmeta := db.uploadmeta ++ [{ meta with recordCount := docs.length }],
          masterdescs := db.masterdescs ++ docs },
        true⟩

/-- The `$or` linkage query that `deleteUploadedFile` uses to find the
MasterDescription rows of ledger entry `meta`. -/
def linkQuery (meta : UploadMetadata) (d : MasterDescription) : Bool :=
  d.fileId == some meta._id || d.uploadedFileId == some meta._id ||
    d.uploadBatch == some meta.filename

structure DeleteUploadResult where
  resp : ApiResponse
  deletedRecordsCount : Nat := 0
  db : DB
  sessionEnded : Bool
deriving DecidableEq, Repr

/-- `master_controller.deleteUploadedFile`: transactional delete of all rows
matching the linkage query plus the ledger entry itself. -/
def deleteUploadedFile (db : DB) (idStr : String) : DeleteUploadResult :=
  if !(isValidObjectId idStr) then
    ⟨⟨400, false, "Invalid file ID format"⟩, 0, db, true⟩
  else
    match db.uploadmeta.find? (fun m => m._id == idStr) with
    | none => ⟨⟨404, false, "File metadata not found"⟩, 0, db, true⟩
    | some meta =>
      let deletedCount := (db.masterdescs.filter (linkQuery meta)).length
      ⟨⟨200, true, "Deleted records and metadata entry."⟩, deletedCount,
        { db with
          masterdescs := db.masterdescs.filter (fun d => !(linkQuery meta d)),
          uploadmeta := db.uploadmeta.eraseP (fun m => m._id == idStr) },
        true⟩

/-! ## Export snapshot controller (`exportedrackcontroller.js`) -/

structure SnapshotsResult where
  resp : ApiResponse
  count : Nat := 0
  db : DB
deriving DecidableEq, Repr

/-- `exportedrackcontroller.createExportedSnapshots`: maps every incoming line
item to a snapshot row stamped with the request-level `teamId`, `siteName` and
the requesting principal's id, then bulk-inserts them (no transaction). -/
def createExportedSnapshots (db : DB) (user : User) (snapshots : List SnapshotIn)
    (teamIdQ siteNameQ : Option String) : SnapshotsResult :=
  if snapshots.isEmpty then
    ⟨⟨400, false, "No snapshot data provided."⟩, 0, db⟩
  else if strFalsy teamIdQ || strFalsy siteNameQ then
    ⟨⟨400, false, "Team ID and Site Name are required for the snapshot."⟩, 0, db⟩
  else
    let teamId := teamIdQ.getD ""
    let siteName := siteNameQ.getD ""
    match db.teams.find? (fun t => t._id == teamId) with
    | none => ⟨⟨404, false, "Team not found."⟩, 0, db⟩
    | some team =>
      let isAuthorized := user.role == Role.admin ||
        (user.role == Role.team_leader && team.teamLeader == some user._id)
      if !isAuthorized then
        ⟨⟨403, false, "Not authorized to create snapshots for this team."⟩, 0, db⟩
      else
        let snapshotsToSave := snapshots.map (fun s =>
          ({ sNo := s.sNo, location := s.location, rackNo := s.rackNo,
             partNo := s.partNo, nextQty := s.nextQty, mrp := s.mrp, ndp := s.ndp,
             materialDescription := s.materialDescription,
             team := teamId, siteName := siteName,
             exportedBy := user._id } : ExportedSnapshot))
        ⟨⟨201, true, "rack snapshots saved successfully."⟩, snapshotsToSave.length,
          { db with snapshots := db.snapshots ++ snapshotsToSave }⟩

/-! ## Store lemmas -/

/-- Replacing the document found by an id query (the model of `save()` after a
`findById`) makes a subsequent `find?` on the same id return the replacement,
provided the replacement keeps the id. -/
theorem find?_map_replace {α : Type} (idf : α → ObjectId) (tid : ObjectId)
    (x x' : α) (hid : idf x' = idf x) :
    ∀ l : List α, l.find? (fun y => idf y == tid) = some x →
      (l.map (fun y => if idf y == tid then x' else y)).find?
        (fun y => idf y == tid) = some x' := by
  intro l
  induction l with
  | nil => intro h; simp at h
  | cons a l ih =>
    intro h
    cases hc : (idf a == tid) with
    | true =>
      simp only [List.find?_cons, hc] at h
      cases h
      have hx' : (idf x' == tid) = true := by rw [hid]; exact hc
      have hfa : (if (idf x == tid) = true then x' else x) = x' := by rw [hc]; simp
      rw [List.map_cons, hfa, List.find?_cons, hx']
    | false =>
      simp only [List.find?_cons, hc] at h
      have hfa : (if (idf a == tid) = true then x' else a) = a := by rw [hc]; simp
      rw [List.map_cons, hfa, List.find?_cons, hc]
      exact ih h

/-- Every pipeline row produced for rack `r` is `rackRowOf db r m` for some
optional material match. -/
theorem mem_unwindMaterial_shape {db : DB} {r : Rack} {row : RackRow}
    (h : row ∈ unwindMaterial db r) : ∃ m, row = rackRowOf db r m := by
  unfold unwindMaterial at h
  cases hc : (db.masterdescs.filter (fun m => m.partNo == r.partNo)).isEmpty with
  | true =>
    simp [hc] at h
    exact ⟨none, h⟩
  | false =>
    simp [hc] at h
    obtain ⟨m, _, hm⟩ := h
    exact ⟨some m, hm.symm⟩

/-- `$unwind` with `preserveNullAndEmptyArrays: true` never drops a rack:
some pipeline row carries it. -/
theorem exists_mem_unwindMaterial (db : DB) (r : Rack) :
    ∃ row ∈ unwindMaterial db r, row.rack = r := by
  unfold unwindMaterial
  cases hc : (db.masterdescs.filter (fun m => m.partNo == r.partNo)).isEmpty with
  | true => exact ⟨rackRowOf db r none, by simp [hc], rfl⟩
  | false =>
    have hex : ∃ m, m ∈ db.masterdescs.filter (fun m => m.partNo == r.partNo) := by
      rw [← List.isEmpty_eq_false_iff_exists_mem]
      exact hc
    obtain ⟨m, hm⟩ := hex
    refine ⟨rackRowOf db r (some m), ?_, rfl⟩
    simp [hc]
    exact ⟨m, by simpa using hm, rfl⟩

/-! ## Concrete sample data for the closed instances below

ObjectIds are 24-hex-digit strings, as the store generates them. -/

def wAdminId : ObjectId := "aaaaaaaaaaaaaaaaaaaaaa01"
def wLeaderId : ObjectId := "aaaaaaaaaaaaaaaaaaaaaa02"
def wMemberId : ObjectId := "aaaaaaaaaaaaaaaaaaaaaa03"
def wOutsiderId : ObjectId := "aaaaaaaaaaaaaaaaaaaaaa04"
def wTeamId : ObjectId := "aaaaaaaaaaaaaaaaaaaaaa10"
def wTeamBId : ObjectId := "aaaaaaaaaaaaaaaaaaaaaa11"
def wRackId : ObjectId := "aaaaaaaaaaaaaaaaaaaaaa20"
def wRackBId : ObjectId := "aaaaaaaaaaaaaaaaaaaaaa21"
def wNewRackId : ObjectId := "aaaaaaaaaaaaaaaaaaaaaa22"
def wFileId : ObjectId := "aaaaaaaaaaaaaaaaaaaaaa30"

def wAdmin : User := { _id := wAdminId, role := Role.admin }
def wLeader : User := { _id := wLeaderId, role := Role.team_leader }
def wMember : User := { _id := wMemberId, role := Role.team_member }
def wOutsider : User := { _id := wOutsiderId, role := Role.team_member }

def wTeam : Team :=
  { _id := wTeamId, siteName := "SiteA", location := "DL",
    teamLeader := some wLeaderId, members := [wMemberId] }

def wTeamB : Team :=
  { _id := wTeamBId, siteName := "SiteB", location := "MH",
    teamLeader := some wLeaderId, members := [] }

def wRack : Rack :=
  { _id := wRackId, rackNo := "R1", partNo := "P1", nextQty := 5,
    location := "SPARES", siteName := "SiteA", scannedBy := wMemberId,
    team := wTeamId }

def wRackB : Rack :=
  { _id := wRackBId, rackNo := "R9", partNo := "P9", nextQty := 1,
    location := "SPARES", siteName := "SiteB", scannedBy := wMemberId,
    team := wTeamBId }

def wDb : DB :=
  { users := [wAdmin, wLeader, wMember, wOutsider],
    teams := [wTeam, wTeamB], racks := [wRack, wRackB] }

/-! ## Claims -/

/-- The team document produced by the completion endpoint. -/
def completedOf (team : Team) : Team :=
  { team with members := [], teamLeader := none, status := "Completed" }

/-- C2: for every team, after a successful `completeTeamWork` call by an admin
or that team's leader, the team's members list is empty, its `teamLeader` is
null and its status is `Completed`, irrespective of the team's prior state. -/
theorem completeTeamWork_clears_team (db : DB) (u : User) (tid : ObjectId)
    (team : Team)
    (hfind : db.teams.find? (fun t => t._id == tid) = some team)
    (hauth : u.role = Role.admin ∨
      (u.role = Role.team_leader ∧ team.teamLeader = some u._id)) :
    (completeTeamWork db u tid).resp.status = 200 ∧
    (completeTeamWork db u tid).data = some (completedOf team) ∧
    (completedOf team).members = [] ∧
    (completedOf team).teamLeader = none ∧
    (completedOf team).status = "Completed" ∧
    (completeTeamWork db u tid).db.teams.find? (fun t => t._id == tid) =
      some (completedOf team) := by
  have hb : (u.role == Role.admin ||
      (u.role == Role.team_leader && team.teamLeader == some u._id)) = true := by
    rcases hauth with h | ⟨h1, h2⟩
    · simp [h]
    · simp [h1, h2]
  have hred : completeTeamWork db u tid =
      ⟨⟨200, true, "Members and leader cleared, status set to Completed."⟩,
        some (completedOf team), saveTeam db tid (completedOf team)⟩ := by
    simp [completeTeamWork, completedOf, hfind, hb]
  rw [hred]
  refine ⟨rfl, rfl, rfl, rfl, rfl, ?_⟩
  exact find?_map_replace (fun t : Team => t._id) tid team (completedOf team)
    rfl db.teams hfind

theorem completeTeamWork_clears_team_witness :
    (completeTeamWork wDb wAdmin wTeamId).resp.status = 200 ∧
    (completeTeamWork wDb wAdmin wTeamId).data = some (completedOf wTeam) ∧
    (completedOf wTeam).members = [] ∧
    (completedOf wTeam).teamLeader = none ∧
    (completedOf wTeam).status = "Completed" ∧
    (completeTeamWork wDb wAdmin wTeamId).db.teams.find? (fun t => t._id == wTeamId) =
      some (completedOf wTeam) :=
  completeTeamWork_clears_team wDb wAdmin wTeamId wTeam (by decide) (Or.inl rfl)

/-- C10: every row inserted by a successful bulk export-snapshot creation
carries the request-level `teamId` as `team`, the request-level `siteName`,
and the requesting principal's id as `exportedBy`, regardless of any `team`,
`siteName` or `exportedBy` values inside the individual line items. -/
theorem createExportedSnapshots_stamps_metadata (db : DB) (u : User)
    (snapshots : List SnapshotIn) (tid sn : String) (team : Team)
    (hne : snapshots ≠ [])
    (htid : tid ≠ "") (hsn : sn ≠ "")
    (hfind : db.teams.find? (fun t => t._id == tid) = some team)
    (hauth : u.role = Role.admin ∨
      (u.role = Role.team_leader ∧ team.teamLeader = some u._id)) :
    (createExportedSnapshots db u snapshots (some tid) (some sn)).resp.status = 201 ∧
    ∃ newRows,
      (createExportedSnapshots db u snapshots (some tid) (some sn)).db.snapshots =
        db.snapshots ++ newRows ∧
      newRows.length = snapshots.length ∧
      ∀ row ∈ newRows, row.team = tid ∧ row.siteName = sn ∧
        row.exportedBy = u._id := by
  have hb : (u.role == Role.admin ||
      (u.role == Role.team_leader && team.teamLeader == some u._id)) = true := by
    rcases hauth with h | ⟨h1, h2⟩
    · simp [h]
    · simp [h1, h2]
  have htid' : tid.isEmpty = false := by
    cases he : tid.isEmpty
    · rfl
    · exact absurd ((String.isEmpty_iff tid).mp he) htid
  have hsn' : sn.isEmpty = false := by
    cases he : sn.isEmpty
    · rfl
    · exact absurd ((String.isEmpty_iff sn).mp he) hsn
  have hne' : snapshots.isEmpty = false := by
    cases he : snapshots.isEmpty
    · rfl
    · exact absurd (List.isEmpty_iff.mp he) hne
  have hred : createExportedSnapshots db u snapshots (some tid) (some sn) =
      ⟨⟨201, true, "rack snapshots saved successfully."⟩,
        (snapshots.map (fun s =>
          ({ sNo := s.sNo, location := s.location, rackNo := s.rackNo,
             partNo := s.partNo, nextQty := s.nextQty, mrp := s.mrp, ndp := s.ndp,
             materialDescription := s.materialDescription,
             team := tid, siteName := sn,
             exportedBy := u._id } : ExportedSnapshot))).length,
        { db with snapshots := db.snapshots ++ snapshots.map (fun s =>
            ({ sNo := s.sNo, location := s.location, rackNo := s.rackNo,
               partNo := s.partNo, nextQty := s.nextQty, mrp := s.mrp, ndp := s.ndp,
               materialDescription := s.materialDescription,
               team := tid, siteName := sn,
               exportedBy := u._id } : ExportedSnapshot)) }⟩ := by
    simp [createExportedSnapshots, strFalsy, hne', htid', hsn', hfind, hb]
  rw [hred]
  refine ⟨rfl, snapshots.map _, rfl, by rw [List.length_map], ?_⟩
  intro row hrow
  rw [List.mem_map] at hrow
  obtain ⟨s, _, hs⟩ := hrow
  rw [← hs]
  exact ⟨rfl, rfl, rfl⟩

theorem createExportedSnapshots_stamps_metadata_witness :
    (createExportedSnapshots wDb wLeader
      [{ sNo := 1, location := "L1", rackNo := "R1", partNo := "P1",
         nextQty := 2, team := some "junk-team", siteName := some "junk-site",
         exportedBy := some "junk-user" }] (some wTeamId) (some "SiteA")).resp.status
        = 201 ∧
    ∃ newRows,
      (createExportedSnapshots wDb wLeader
        [{ sNo := 1, location := "L1", rackNo := "R1", partNo := "P1",
           nextQty := 2, team := some "junk-team", siteName := some "junk-site",
           exportedBy := some "junk-user" }] (some wTeamId) (some "SiteA")).db.snapshots
          = wDb.snapshots ++ newRows ∧
      newRows.length = 1 ∧
      ∀ row ∈ newRows, row.team = wTeamId ∧ row.siteName = "SiteA" ∧
        row.exportedBy = wLeaderId :=
  createExportedSnapshots_stamps_metadata wDb wLeader _ wTeamId "SiteA" wTeam
    (by decide) (by decide) (by decide) (by decide)
    (Or.inr ⟨rfl, rfl⟩)

/-- C9: adding a member id already present in the team's members fails with the
controller's Conflict-class 400 response and leaves the database unchanged;
removing a member id not in the members fails with its not-a-member 400
response and leaves the database unchanged; and after one successful add, the
identical second add-member call fails with 400 and changes nothing, so the
membership size is unchanged by the second call. -/
theorem team_membership_idempotence (db : DB) (u : User)
    (tid memberId : ObjectId) (team : Team) (memberUser : User)
    (hfind : db.teams.find? (fun t => t._id == tid) = some team)
    (hauth : isTeamLeaderOrAdmin u team = true)
    (huser : db.users.find? (fun x => x._id == memberId) = some memberUser)
    (hrole : memberUser.role = Role.team_member) :
    (team.members.contains memberId = true →
      (addTeamMember db u tid memberId).resp.status = 400 ∧
      (addTeamMember db u tid memberId).db = db) ∧
    (team.members.contains memberId = false →
      (removeTeamMember db u tid memberId).resp.status = 400 ∧
      (removeTeamMember db u tid memberId).db = db) ∧
    (team.members.contains memberId = false →
      (addTeamMember db u tid memberId).resp.status = 200 ∧
      (addTeamMember (addTeamMember db u tid memberId).db u tid
        memberId).resp.status = 400 ∧
      (addTeamMember (addTeamMember db u tid memberId).db u tid memberId).db =
        (addTeamMember db u tid memberId).db) := by
  refine ⟨fun hc => ?_, fun hc => ?_, fun hc => ?_⟩
  · have hmem : memberId ∈ team.members := by simpa using hc
    have hred : addTeamMember db u tid memberId =
        ⟨⟨400, false, "User is already a member of this team."⟩, none, db⟩ := by
      simp [addTeamMember, hfind, hauth, huser, hrole, hmem]
    rw [hred]
    exact ⟨rfl, rfl⟩
  · have hnotmem : memberId ∉ team.members := by simpa using hc
    have hall : team.members.filter (fun m => m != memberId) = team.members :=
      List.filter_eq_self.mpr (fun a ha => by
        simp only [bne_iff_ne, ne_eq, decide_eq_true_eq]
        exact fun heq => hnotmem (heq ▸ ha))
    have hred : removeTeamMember db u tid memberId =
        ⟨⟨400, false, "User is not a member of this team."⟩, none, db⟩ := by
      simp [removeTeamMember, hfind, hauth, hall]
    rw [hred]
    exact ⟨rfl, rfl⟩
  · have hnotmem : memberId ∉ team.members := by simpa using hc
    have hred1 : addTeamMember db u tid memberId =
        ⟨⟨200, true, "Member added successfully"⟩,
          some { team with members := team.members ++ [memberId] },
          saveTeam db tid { team with members := team.members ++ [memberId] }⟩ := by
      simp [addTeamMember, hfind, hauth, huser, hrole, hnotmem]
    have hfind2 : (saveTeam db tid
        { team with members := team.members ++ [memberId] }).teams.find?
          (fun t => t._id == tid)
        = some { team with members := team.members ++ [memberId] } :=
      find?_map_replace (fun t : Team => t._id) tid team
        { team with members := team.members ++ [memberId] } rfl db.teams hfind
    have hauth2 : isTeamLeaderOrAdmin u
        { team with members := team.members ++ [memberId] } = true := by
      simpa [isTeamLeaderOrAdmin] using hauth
    have huser2 : (saveTeam db tid
        { team with members := team.members ++ [memberId] }).users.find?
          (fun x => x._id == memberId) = some memberUser := by
      simpa [saveTeam] using huser
    have hmem2 : memberId ∈ team.members ++ [memberId] := by simp
    have hred2 : addTeamMember
        (saveTeam db tid { team with members := team.members ++ [memberId] })
        u tid memberId =
        ⟨⟨400, false, "User is already a member of this team."⟩, none,
          saveTeam db tid { team with members := team.members ++ [memberId] }⟩ := by
      simp [addTeamMember, hfind2, hauth2, huser2, hrole, hmem2]
    rw [hred1]
    exact ⟨rfl, by rw [hred2], by rw [hred2]⟩

theorem team_membership_idempotence_witness :
    ((wTeam.members.contains wMemberId = true →
      (addTeamMember wDb wLeader wTeamId wMemberId).resp.status = 400 ∧
      (addTeamMember wDb wLeader wTeamId wMemberId).db = wDb) ∧
    (wTeam.members.contains wMemberId = false →
      (removeTeamMember wDb wLeader wTeamId wMemberId).resp.status = 400 ∧
      (removeTeamMember wDb wLeader wTeamId wMemberId).db = wDb) ∧
    (wTeam.members.contains wMemberId = false →
      (addTeamMember wDb wLeader wTeamId wMemberId).resp.status = 200 ∧
      (addTeamMember (addTeamMember wDb wLeader wTeamId wMemberId).db wLeader
        wTeamId wMemberId).resp.status = 400 ∧
      (addTeamMember (addTeamMember wDb wLeader wTeamId wMemberId).db wLeader
        wTeamId wMemberId).db =
        (addTeamMember wDb wLeader wTeamId wMemberId).db)) ∧
    ((wTeamB.members.contains wOutsiderId = true →
      (addTeamMember wDb wLeader wTeamBId wOutsiderId).resp.status = 400 ∧
      (addTeamMember wDb wLeader wTeamBId wOutsiderId).db = wDb) ∧
    (wTeamB.members.contains wOutsiderId = false →
      (removeTeamMember wDb wLeader wTeamBId wOutsiderId).resp.status = 400 ∧
      (removeTeamMember wDb wLeader wTeamBId wOutsiderId).db = wDb) ∧
    (wTeamB.members.contains wOutsiderId = false →
      (addTeamMember wDb wLeader wTeamBId wOutsiderId).resp.status = 200 ∧
      (addTeamMember (addTeamMember wDb wLeader wTeamBId wOutsiderId).db wLeader
        wTeamBId wOutsiderId).resp.status = 400 ∧
      (addTeamMember (addTeamMember wDb wLeader wTeamBId wOutsiderId).db wLeader
        wTeamBId wOutsiderId).db =
        (addTeamMember wDb wLeader wTeamBId wOutsiderId).db)) :=
  ⟨team_membership_idempotence wDb wLeader wTeamId wMemberId wTeam wMember
      (by decide) (by decide) (by decide) rfl,
    team_membership_idempotence wDb wLeader wTeamBId wOutsiderId wTeamB wOutsider
      (by decide) (by decide) (by decide) rfl⟩

/-- C3: for every bulk master-description upload with a non-empty entry list,
the operation is atomic: on success (no store failure) the UploadMetadata
record, all derived MasterDescription rows tagged with the batch id and
filename, and the final `recordCount` stamp take effect together; on a store
failure at any step nothing is observable (the database is unchanged); and the
session is released on every exit path. -/
theorem uploadMasterDescriptions_atomic (db : DB) (user? : Option User)
    (entries : List UploadEntry) (filename : String) (metaId : ObjectId)
    (failAt : Option TxStep)
    (hne : entries ≠ []) :
    (uploadMasterDescriptions db user? entries filename metaId
      failAt).sessionEnded = true ∧
    (failAt = none →
      (uploadMasterDescriptions db user? entries filename metaId
        failAt).resp.status = 201 ∧
      (uploadMasterDescriptions db user? entries filename metaId
        failAt).db.uploadmeta = db.uploadmeta ++
        [{ _id := metaId, filename := filename, totalReceived := entries.length,
           recordCount := entries.length,
           uploadedBy := user?.map (fun u => u._id) }] ∧
      (uploadMasterDescriptions db user? entries filename metaId
        failAt).db.masterdescs = db.masterdescs ++
        entries.map (mkUploadDoc filename metaId) ∧
      ∀ d ∈ entries.map (mkUploadDoc filename metaId),
        d.fileId = some metaId ∧ d.uploadBatch = some filename) ∧
    (failAt ≠ none →
      (uploadMasterDescriptions db user? entries filename metaId
        failAt).resp.status = 500 ∧
      (uploadMasterDescriptions db user? entries filename metaId
        failAt).db = db) := by
  have hne' : entries.isEmpty = false := by
    cases he : entries.isEmpty
    · rfl
    · exact absurd (List.isEmpty_iff.mp he) hne
  refine ⟨?_, fun hf => ?_, fun hf => ?_⟩
  · cases failAt with
    | none => simp [uploadMasterDescriptions, hne']
    | some s => cases s <;> simp [uploadMasterDescriptions, hne']
  · subst hf
    have hred : uploadMasterDescriptions db user? entries filename metaId none =
        ⟨⟨201, true, "File uploaded successfully"⟩,
          { db with
            uploadmeta := db.uploadmeta ++
              [{ _id := metaId, filename := filename,
                 totalReceived := entries.length,
                 recordCount := (entries.map (mkUploadDoc filename metaId)).length,
                 uploadedBy := user?.map (fun u => u._id) }],
            masterdescs := db.masterdescs ++
              entries.map (mkUploadDoc filename metaId) },
          true⟩ := by
      simp [uploadMasterDescriptions, hne']
    rw [hred]
    refine ⟨rfl, by rw [List.length_map], rfl, ?_⟩
    intro d hd
    rw [List.mem_map] at hd
    obtain ⟨e, _, he⟩ := hd
    rw [← he]
    exact ⟨rfl, rfl⟩
  · cases failAt with
    | none => exact absurd rfl hf
    | some s => cases s <;> exact ⟨by simp [uploadMasterDescriptions, hne'],
        by simp [uploadMasterDescriptions, hne']⟩

theorem uploadMasterDescriptions_atomic_witness :
    ((uploadMasterDescriptions wDb (some wAdmin)
      [{ partNo := "P1", description := "d1" }] "batch1" wFileId
      none).sessionEnded = true ∧
    (uploadMasterDescriptions wDb (some wAdmin)
      [{ partNo := "P1", description := "d1" }] "batch1" wFileId
      none).resp.status = 201 ∧
    (uploadMasterDescriptions wDb (some wAdmin)
      [{ partNo := "P1", description := "d1" }] "batch1" wFileId
      none).db.masterdescs.length = 1) ∧
    ((uploadMasterDescriptions wDb (some wAdmin)
      [{ partNo := "P1", description := "d1" }] "batch1" wFileId
      (some TxStep.insertDocs)).sessionEnded = true ∧
    (uploadMasterDescriptions wDb (some wAdmin)
      [{ partNo := "P1", description := "d1" }] "batch1" wFileId
      (some TxStep.insertDocs)).resp.status = 500 ∧
    (uploadMasterDescriptions wDb (some wAdmin)
      [{ partNo := "P1", description := "d1" }] "batch1" wFileId
      (some TxStep.insertDocs)).db = wDb) := by
  have hok := uploadMasterDescriptions_atomic wDb (some wAdmin)
    [{ partNo := "P1", description := "d1" }] "batch1" wFileId none (by decide)
  have hfail := uploadMasterDescriptions_atomic wDb (some wAdmin)
    [{ partNo := "P1", description := "d1" }] "batch1" wFileId
    (some TxStep.insertDocs) (by decide)
  refine ⟨⟨hok.1, (hok.2.1 rfl).1, ?_⟩,
    ⟨hfail.1, (hfail.2.2 (by decide)).1, (hfail.2.2 (by decide)).2⟩⟩
  rw [(hok.2.1 rfl).2.2.1]
  decide

/-- C4: uploading N master-description entries and then deleting that upload's
ledger entry by id removes exactly the N MasterDescription rows linked to it
plus the ledger entry itself, reports `deletedRecordsCount = N`, and afterwards
a count over the linkage query returns 0.  The hypotheses say the batch id is
fresh and no pre-existing row carries the batch's filename linkage, i.e. the
rows linked to this upload are exactly the ones it inserted. -/
theorem upload_delete_round_trip (db : DB) (user? : Option User)
    (entries : List UploadEntry) (filename : String) (metaId : ObjectId)
    (hne : entries ≠ [])
    (hvalid : isValidObjectId metaId = true)
    (hfreshMeta : ∀ m ∈ db.uploadmeta, (m._id == metaId) = false)
    (hfreshRows : ∀ d ∈ db.masterdescs,
      (d.fileId == some metaId) = false ∧
      (d.uploadedFileId == some metaId) = false ∧
      (d.uploadBatch == some filename) = false) :
    (deleteUploadedFile (uploadMasterDescriptions db user? entries filename
      metaId none).db metaId).resp.status = 200 ∧
    (deleteUploadedFile (uploadMasterDescriptions db user? entries filename
      metaId none).db metaId).deletedRecordsCount = entries.length ∧
    (deleteUploadedFile (uploadMasterDescriptions db user? entries filename
      metaId none).db metaId).db = db ∧
    (deleteUploadedFile (uploadMasterDescriptions db user? entries filename
      metaId none).db metaId).db.masterdescs.countP (fun d =>
        d.fileId == some metaId || d.uploadedFileId == some metaId ||
        d.uploadBatch == some filename) = 0 := by
  have hne' : entries.isEmpty = false := by
    cases he : entries.isEmpty
    · rfl
    · exact absurd (List.isEmpty_iff.mp he) hne
  have hup : (uploadMasterDescriptions db user? entries filename metaId none).db =
      { db with
        uploadmeta := db.uploadmeta ++
          [{ _id := metaId, filename := filename,
             totalReceived := entries.length,
             recordCount := entries.length,
             uploadedBy := user?.map (fun u => u._id) }],
        masterdescs := db.masterdescs ++
          entries.map (mkUploadDoc filename metaId) } := by
    simp [uploadMasterDescriptions, hne']
  have hdocsAll : ∀ d ∈ entries.map (mkUploadDoc filename metaId),
      (d.fileId == some metaId || d.uploadedFileId == some metaId ||
        d.uploadBatch == some filename) = true := by
    intro d hd
    rw [List.mem_map] at hd
    obtain ⟨e, _, he⟩ := hd
    rw [← he]
    simp [mkUploadDoc]
  have horigAll : ∀ d ∈ db.masterdescs,
      (d.fileId == some metaId || d.uploadedFileId == some metaId ||
        d.uploadBatch == some filename) = false := by
    intro d hd
    obtain ⟨h1, h2, h3⟩ := hfreshRows d hd
    simp [h1, h2, h3]
  have hfindm : (db.uploadmeta ++
      [({ _id := metaId, filename := filename,
          totalReceived := entries.length,
          recordCount := entries.length,
          uploadedBy := user?.map (fun u => u._id) } : UploadMetadata)]).find?
        (fun m => m._id == metaId) =
      some { _id := metaId, filename := filename,
             totalReceived := entries.length,
             recordCount := entries.length,
             uploadedBy := user?.map (fun u => u._id) } := by
    rw [List.find?_append,
      List.find?_eq_none.mpr (fun m hm => by simp [hfreshMeta m hm])]
    simp
  have hfilter_del : (db.masterdescs ++
      entries.map (mkUploadDoc filename metaId)).filter (fun d =>
        d.fileId == some metaId || d.uploadedFileId == some metaId ||
        d.uploadBatch == some filename) =
      entries.map (mkUploadDoc filename metaId) := by
    rw [List.filter_append,
      List.filter_eq_nil_iff.mpr (fun d hd => by simp [horigAll d hd]),
      List.filter_eq_self.mpr hdocsAll]
    rfl
  have hfilter_keep : (db.masterdescs ++
      entries.map (mkUploadDoc filename metaId)).filter (fun d =>
        !(d.fileId == some metaId || d.uploadedFileId == some metaId ||
          d.uploadBatch == some filename)) = db.masterdescs := by
    rw [List.filter_append,
      List.filter_eq_self.mpr (fun d hd => by simp [horigAll d hd]),
      List.filter_eq_nil_iff.mpr (fun d hd => by simp [hdocsAll d hd])]
    simp
  have herase : (db.uploadmeta ++
      [({ _id := metaId, filename := filename,
          totalReceived := entries.length,
          recordCount := entries.length,
          uploadedBy := user?.map (fun u => u._id) } : UploadMetadata)]).eraseP
        (fun m => m._id == metaId) = db.uploadmeta := by
    rw [List.eraseP_append_right _ (fun m hm => by simp [hfreshMeta m hm]),
      List.eraseP_cons_of_pos (by simp)]
    simp
  have hdel : deleteUploadedFile (uploadMasterDescriptions db user? entries
      filename metaId none).db metaId =
      ⟨⟨200, true, "Deleted records and metadata entry."⟩, entries.length,
        db, true⟩ := by
    rw [hup]
    simp only [deleteUploadedFile, hvalid, Bool.not_true, Bool.false_eq_true,
      if_false, hfindm, linkQuery, hfilter_del, hfilter_keep, herase,
      List.length_map]
    have hfd2 :
        List.filter
          (linkQuery
            { _id := metaId, filename := filename,
              totalReceived := entries.length, recordCount := entries.length,
              uploadedBy := user?.map (fun u => u._id) })
          (db.masterdescs ++ entries.map (mkUploadDoc filename metaId)) =
          entries.map (mkUploadDoc filename metaId) := hfilter_del
    rw [hfd2, List.length_map]
  rw [hdel]
  exact ⟨rfl, rfl, rfl,
    List.countP_eq_zero.mpr (fun d hd => by simp [horigAll d hd])⟩

theorem upload_delete_round_trip_witness :
    (deleteUploadedFile (uploadMasterDescriptions wDb (some wAdmin)
      [{ partNo := "P1", description := "d1" }, { partNo := "P2", ndp := some 3 }]
      "batch1" wFileId none).db wFileId).resp.status = 200 ∧
    (deleteUploadedFile (uploadMasterDescriptions wDb (some wAdmin)
      [{ partNo := "P1", description := "d1" }, { partNo := "P2", ndp := some 3 }]
      "batch1" wFileId none).db wFileId).deletedRecordsCount = 2 ∧
    (deleteUploadedFile (uploadMasterDescriptions wDb (some wAdmin)
      [{ partNo := "P1", description := "d1" }, { partNo := "P2", ndp := some 3 }]
      "batch1" wFileId none).db wFileId).db = wDb ∧
    (deleteUploadedFile (uploadMasterDescriptions wDb (some wAdmin)
      [{ partNo := "P1", description := "d1" }, { partNo := "P2", ndp := some 3 }]
      "batch1" wFileId none).db wFileId).db.masterdescs.countP (fun d =>
        d.fileId == some wFileId || d.uploadedFileId == some wFileId ||
        d.uploadBatch == some "batch1") = 0 :=
  upload_delete_round_trip wDb (some wAdmin)
    [{ partNo := "P1", description := "d1" }, { partNo := "P2", ndp := some 3 }]
    "batch1" wFileId (by decide) (by decide)
    (by decide) (by decide)

/-- C1: a team_member principal is always denied `updateRack` and `deleteRack`
with Forbidden (403) — the router's `authorize(['admin', 'team_leader'])` gate
rejects the role before the controller runs, even for a rack of a team the
principal is a member of — and the database is left unchanged; while a
`createRack` request for that team by the same principal is allowed (201). -/
theorem team_member_can_create_never_mutate_rack (db : DB) (u : User)
    (ridStr : String) (body : RackUpdateBody) (cb : RackCreateBody)
    (newId : ObjectId) (team : Team)
    (hrole : u.role = Role.team_member)
    (h1 : strFalsy cb.rackNo = false) (h2 : strFalsy cb.partNo = false)
    (h3 : cb.nextQty.isNone = false) (h4 : strFalsy cb.siteName = false)
    (h5 : strFalsy cb.location = false)
    (hteam : db.teams.find? (fun t => t.siteName == cb.siteName.getD "") =
      some team)
    (hmem : u._id ∈ team.members)
    (hdup : db.racks.find? (fun r => r.partNo == cb.partNo.getD "" &&
      r.rackNo == cb.rackNo.getD "") = none) :
    (updateRackRoute db u ridStr body).resp.status = 403 ∧
    (updateRackRoute db u ridStr body).db = db ∧
    (deleteRackRoute db u ridStr).resp.status = 403 ∧
    (deleteRackRoute db u ridStr).db = db ∧
    (createRackRoute db u cb newId).resp.status = 201 := by
  have hroute : authorize [Role.admin, Role.team_leader] u = false := by
    simp [authorize, hrole]
  have hroute2 : authorize [Role.admin, Role.team_leader, Role.team_member] u
      = true := by
    simp [authorize, hrole]
  refine ⟨?_, ?_, ?_, ?_, ?_⟩
  · simp [updateRackRoute, hroute]
  · simp [updateRackRoute, hroute]
  · simp [deleteRackRoute, hroute]
  · simp [deleteRackRoute, hroute]
  · simp [createRackRoute, hroute2, createRack, h1, h2, h3, h4, h5, hteam,
      hdup, hrole, hmem]

theorem team_member_can_create_never_mutate_rack_witness :
    (updateRackRoute wDb wMember wRackId { nextQty := some 9 }).resp.status = 403 ∧
    (updateRackRoute wDb wMember wRackId { nextQty := some 9 }).db = wDb ∧
    (deleteRackRoute wDb wMember wRackId).resp.status = 403 ∧
    (deleteRackRoute wDb wMember wRackId).db = wDb ∧
    (createRackRoute wDb wMember
      { rackNo := some "R2", partNo := some "P2", nextQty := some 1,
        siteName := some "SiteA", location := some "SPARES" }
      wNewRackId).resp.status = 201 :=
  team_member_can_create_never_mutate_rack wDb wMember wRackId
    { nextQty := some 9 }
    { rackNo := some "R2", partNo := some "P2", nextQty := some 1,
      siteName := some "SiteA", location := some "SPARES" }
    wNewRackId wTeam rfl rfl rfl rfl rfl rfl (by decide) (by decide) (by decide)

/-- C6 counterexample: `scannedBy` is not immutable under `updateRack`.  A
successful admin update whose body supplies a `scannedBy` value overwrites the
stored one: the rack's `scannedBy` was `wMemberId` before the call and is the
supplied `wOutsiderId` afterwards. -/
theorem updateRack_rewrites_scannedBy_counterexample :
    (updateRack wDb wAdmin wRackId { scannedBy := some wOutsiderId }).resp.status
      = 200 ∧
    wDb.racks.find? (fun r => r._id == wRackId) = some wRack ∧
    wRack.scannedBy = wMemberId ∧
    ((updateRack wDb wAdmin wRackId { scannedBy := some wOutsiderId }).db.racks.find?
      (fun r => r._id == wRackId)).map (fun r => r.scannedBy) = some wOutsiderId ∧
    wOutsiderId ≠ wMemberId := by
  refine ⟨by decide, by decide, by decide, by decide, by decide⟩

/-- C6 (amended): a successful `updateRack` whose request body does not supply
a `scannedBy` field leaves the rack's `scannedBy` unchanged; `findByIdAndUpdate`
overwrites exactly the supplied fields, so the stored value is preserved only
when the body omits it. -/
theorem updateRack_preserves_scannedBy_when_absent (db : DB) (u : User)
    (ridStr : String) (body : RackUpdateBody) (r0 : Rack)
    (hsb : body.scannedBy = none)
    (hfind : db.racks.find? (fun r => r._id == ridStr) = some r0)
    (h200 : (updateRack db u ridStr body).resp.status = 200) :
    (updateRack db u ridStr body).data.map (fun r => r.scannedBy) =
      some r0.scannedBy ∧
    ((updateRack db u ridStr body).db.racks.find? (fun r => r._id == ridStr)).map
      (fun r => r.scannedBy) = some r0.scannedBy := by
  cases hv : isValidObjectId ridStr with
  | false => simp [updateRack, hv] at h200
  | true =>
    cases htd : db.teams.find? (fun t => t._id == r0.team) with
    | none =>
      by_cases hb : u.role = Role.admin
      · have hred : updateRack db u ridStr body =
            ⟨⟨200, true, "Rack updated successfully"⟩,
              some (applyRackUpdate r0 body),
              { db with racks := db.racks.map (fun r =>
                  if r._id == ridStr then applyRackUpdate r0 body else r) }⟩ := by
          simp [updateRack, hv, hfind, htd, hb]
        rw [hred]
        refine ⟨by simp [applyRackUpdate, hsb], ?_⟩
        rw [show (⟨⟨200, true, "Rack updated successfully"⟩,
            some (applyRackUpdate r0 body),
            { db with racks := db.racks.map (fun r =>
                if r._id == ridStr then applyRackUpdate r0 body else r) }⟩ :
            RackMutResult).db.racks = db.racks.map (fun r =>
                if r._id == ridStr then applyRackUpdate r0 body else r) from rfl,
          find?_map_replace (fun r : Rack => r._id) ridStr r0
            (applyRackUpdate r0 body) rfl db.racks hfind]
        simp [applyRackUpdate, hsb]
      · simp [updateRack, hv, hfind, htd, hb] at h200
    | some t =>
      by_cases hb1 : u.role = Role.admin
      · have hred : updateRack db u ridStr body =
            ⟨⟨200, true, "Rack updated successfully"⟩,
              some (applyRackUpdate r0 body),
              { db with racks := db.racks.map (fun r =>
                  if r._id == ridStr then applyRackUpdate r0 body else r) }⟩ := by
          simp [updateRack, hv, hfind, htd, hb1]
        rw [hred]
        refine ⟨by simp [applyRackUpdate, hsb], ?_⟩
        rw [show (⟨⟨200, true, "Rack updated successfully"⟩,
            some (applyRackUpdate r0 body),
            { db with racks := db.racks.map (fun r =>
                if r._id == ridStr then applyRackUpdate r0 body else r) }⟩ :
            RackMutResult).db.racks = db.racks.map (fun r =>
                if r._id == ridStr then applyRackUpdate r0 body else r) from rfl,
          find?_map_replace (fun r : Rack => r._id) ridStr r0
            (applyRackUpdate r0 body) rfl db.racks hfind]
        simp [applyRackUpdate, hsb]
      · by_cases hb2 : t.teamLeader = some u._id
        · have hred : updateRack db u ridStr body =
              ⟨⟨200, true, "Rack updated successfully"⟩,
                some (applyRackUpdate r0 body),
                { db with racks := db.racks.map (fun r =>
                    if r._id == ridStr then applyRackUpdate r0 body else r) }⟩ := by
            simp [updateRack, hv, hfind, htd, hb1, hb2]
          rw [hred]
          refine ⟨by simp [applyRackUpdate, hsb], ?_⟩
          rw [show (⟨⟨200, true, "Rack updated successfully"⟩,
              some (applyRackUpdate r0 body),
              { db with racks := db.racks.map (fun r =>
                  if r._id == ridStr then applyRackUpdate r0 body else r) }⟩ :
              RackMutResult).db.racks = db.racks.map (fun r =>
                  if r._id == ridStr then applyRackUpdate r0 body else r) from rfl,
            find?_map_replace (fun r : Rack => r._id) ridStr r0
              (applyRackUpdate r0 body) rfl db.racks hfind]
          simp [applyRackUpdate, hsb]
        · simp [updateRack, hv, hfind, htd, hb1, hb2] at h200

theorem updateRack_preserves_scannedBy_when_absent_witness :
    (updateRack wDb wAdmin wRackId { nextQty := some 7 }).data.map
      (fun r => r.scannedBy) = some wRack.scannedBy ∧
    ((updateRack wDb wAdmin wRackId { nextQty := some 7 }).db.racks.find?
      (fun r => r._id == wRackId)).map (fun r => r.scannedBy) =
      some wRack.scannedBy :=
  updateRack_preserves_scannedBy_when_absent wDb wAdmin wRackId
    { nextQty := some 7 } wRack rfl (by decide) (by decide)

/-- C7: the duplicate pre-check in `createRack` queries `{ partNo, rackNo }`
with no `siteName`, so a `(partNo, rackNo)` pair existing only at a different
site blocks creation.  Here no rack at `SiteA` carries `("P9", "R9")` — only
`SiteB`'s rack does — yet creating it at `SiteA` is rejected with the
duplicate error, contradicting the documented per-site uniqueness scope. -/
theorem createRack_duplicate_check_ignores_site :
    (createRack wDb wAdmin
      { rackNo := some "R9", partNo := some "P9", nextQty := some 1,
        siteName := some "SiteA", location := some "SPARES" }
      wNewRackId).resp.status = 400 ∧
    (createRack wDb wAdmin
      { rackNo := some "R9", partNo := some "P9", nextQty := some 1,
        siteName := some "SiteA", location := some "SPARES" }
      wNewRackId).resp.message = "PartNumber  already exists for this Rack." ∧
    (∀ r ∈ wDb.racks, r.siteName = "SiteA" → ¬(r.partNo = "P9" ∧ r.rackNo = "R9")) ∧
    (∃ r ∈ wDb.racks, r.siteName = "SiteB" ∧ r.partNo = "P9" ∧ r.rackNo = "R9") := by
  refine ⟨by decide, by decide, by decide, by decide⟩

/-- The rows of the 200 response built by the rack list pipeline. -/
theorem rackListOk_data (db : DB) (pred : Rack → Bool) :
    (rackListOk db pred).data =
      (db.racks.filter pred).flatMap (unwindMaterial db) := rfl

/-- Every row of a rack list result comes from a stored rack satisfying the
match filter. -/
theorem rackListOk_row_pred (db : DB) (pred : Rack → Bool) :
    ∀ row ∈ (rackListOk db pred).data,
      row.rack ∈ db.racks ∧ pred row.rack = true := by
  intro row hrow
  rw [rackListOk_data, List.mem_flatMap] at hrow
  obtain ⟨r, hrF, hrowU⟩ := hrow
  obtain ⟨m, rfl⟩ := mem_unwindMaterial_shape hrowU
  rw [List.mem_filter] at hrF
  exact ⟨hrF.1, hrF.2⟩

/-- Every stored rack satisfying the match filter appears in some row of the
rack list result. -/
theorem rackListOk_covers (db : DB) (pred : Rack → Bool) :
    ∀ r ∈ db.racks, pred r = true →
      ∃ row ∈ (rackListOk db pred).data, row.rack = r := by
  intro r hr hp
  obtain ⟨row, hrowU, hrower⟩ := exists_mem_unwindMaterial db r
  refine ⟨row, ?_, hrower⟩
  rw [rackListOk_data]
  exact List.mem_flatMap.mpr ⟨r, List.mem_filter.mpr ⟨hr, hp⟩, hrowU⟩

/-- C5: a rack list query by a team_leader principal (with no optional
`siteName` refinement) succeeds with status 200 and returns exactly the union
of the racks of the teams that principal leads: every returned row's rack
belongs to a led team (zero racks from other teams), every rack of a led team
appears among the rows, and a leader of no teams receives a successful empty
result rather than an error.  The admin-only `teamId` refinement is ignored
for this role. -/
theorem getRacks_leader_sees_exactly_led_teams (db : DB) (uid uemail : String)
    (teamIdQ : Option String) :
    (getRacks db (some ⟨uid, Role.team_leader, uemail⟩) none teamIdQ).resp.status
      = 200 ∧
    (∀ row ∈ (getRacks db (some ⟨uid, Role.team_leader, uemail⟩) none
        teamIdQ).data,
      row.rack.team ∈ (db.teams.filter (fun t =>
        t.teamLeader == some uid)).map (fun t => t._id)) ∧
    (∀ r ∈ db.racks,
      r.team ∈ (db.teams.filter (fun t =>
        t.teamLeader == some uid)).map (fun t => t._id) →
      ∃ row ∈ (getRacks db (some ⟨uid, Role.team_leader, uemail⟩) none
        teamIdQ).data, row.rack = r) ∧
    (db.teams.filter (fun t => t.teamLeader == some uid) = [] →
      (getRacks db (some ⟨uid, Role.team_leader, uemail⟩) none teamIdQ).data
        = []) := by
  have hred : getRacks db (some ⟨uid, Role.team_leader, uemail⟩) none teamIdQ =
      (if ((db.teams.filter (fun t => t.teamLeader == some uid)).map
          (fun t => t._id)).isEmpty then (⟨⟨200, true, ""⟩, 0, []⟩ : RackListResult)
       else rackListOk db (fun r =>
         ((db.teams.filter (fun t => t.teamLeader == some uid)).map
           (fun t => t._id)).contains r.team && true)) := rfl
  cases hE : ((db.teams.filter (fun t => t.teamLeader == some uid)).map
      (fun t => t._id)).isEmpty with
  | true =>
    have hred1 : getRacks db (some ⟨uid, Role.team_leader, uemail⟩) none teamIdQ =
        (⟨⟨200, true, ""⟩, 0, []⟩ : RackListResult) := by
      rw [hred]
      simp [hE]
    rw [hred1]
    refine ⟨rfl, by simp, ?_, fun _ => rfl⟩
    intro r hr hmem
    rw [List.isEmpty_iff] at hE
    rw [hE] at hmem
    simp at hmem
  | false =>
    have hred2 : getRacks db (some ⟨uid, Role.team_leader, uemail⟩) none teamIdQ =
        rackListOk db (fun r =>
          ((db.teams.filter (fun t => t.teamLeader == some uid)).map
            (fun t => t._id)).contains r.team && true) := by
      rw [hred]
      simp [hE]
    rw [hred2]
    refine ⟨rfl, ?_, ?_, ?_⟩
    · intro row hrow
      have h := rackListOk_row_pred db _ row hrow
      have hc : (((db.teams.filter (fun t => t.teamLeader == some uid)).map
          (fun t => t._id)).contains row.rack.team && true) = true := h.2
      simpa using hc
    · intro r hr hmem
      refine rackListOk_covers db _ r hr ?_
      simp [hmem]
    · intro h
      rw [h] at hE
      simp at hE

theorem getRacks_leader_sees_exactly_led_teams_witness :
    (getRacks wDb (some ⟨wLeaderId, Role.team_leader, ""⟩) none none).resp.status
      = 200 ∧
    (∀ row ∈ (getRacks wDb (some ⟨wLeaderId, Role.team_leader, ""⟩) none
        none).data,
      row.rack.team ∈ (wDb.teams.filter (fun t =>
        t.teamLeader == some wLeaderId)).map (fun t => t._id)) ∧
    (∀ r ∈ wDb.racks,
      r.team ∈ (wDb.teams.filter (fun t =>
        t.teamLeader == some wLeaderId)).map (fun t => t._id) →
      ∃ row ∈ (getRacks wDb (some ⟨wLeaderId, Role.team_leader, ""⟩) none
        none).data, row.rack = r) ∧
    (wDb.teams.filter (fun t => t.teamLeader == some wLeaderId) = [] →
      (getRacks wDb (some ⟨wLeaderId, Role.team_leader, ""⟩) none none).data
        = []) :=
  getRacks_leader_sees_exactly_led_teams wDb wLeaderId "" none

/-- C8 counterexample: a syntactically invalid rack id makes `getRackById`
return status 400 (the controller's "Invalid Rack ID." validation response),
not the 404 NotFound that the claim asserts. -/
theorem getRackById_invalid_id_is_400_not_404 :
    (getRackById wDb wAdmin "not-an-objectid").resp.status = 400 ∧
    (getRackById wDb wAdmin "not-an-objectid").resp.status ≠ 404 := by
  refine ⟨by decide, by decide⟩

/-- C8 (amended): `getRackById` returns 400 (a validation error, not NotFound)
when the supplied id is syntactically invalid; 404 NotFound when the id is
valid but no rack matches it; and 403 Forbidden when the rack exists but the
principal is no admin and has no leader or member relation to the rack's team
— so the authorization check runs only after a successful fetch. -/
theorem getRackById_error_taxonomy (db : DB) (u : User) (ridStr : String)
    (r : Rack) :
    (isValidObjectId ridStr = false →
      (getRackById db u ridStr).resp.status = 400) ∧
    (isValidObjectId ridStr = true →
      db.racks.filter (fun x => x._id == ridStr) = [] →
      (getRackById db u ridStr).resp.status = 404) ∧
    (isValidObjectId ridStr = true →
      db.racks.filter (fun x => x._id == ridStr) = [r] →
      u.role ≠ Role.admin →
      (∀ t, db.teams.find? (fun x => x._id == r.team) = some t →
        t.teamLeader ≠ some u._id ∧ u._id ∉ t.members) →
      (getRackById db u ridStr).resp.status = 403) := by
  refine ⟨fun hv => ?_, fun hv hnone => ?_, fun hv hone hnadm hnrel => ?_⟩
  · simp [getRackById, hv]
  · simp [getRackById, hv, hnone]
  · have hrows : (db.racks.filter (fun x => x._id == ridStr)).flatMap
        (unwindMaterial db) = unwindMaterial db r := by
      rw [hone, List.flatMap_cons, List.flatMap_nil, List.append_nil]
    cases hu : unwindMaterial db r with
    | nil => exact absurd hu (by
        intro hnil
        obtain ⟨row, hrow, _⟩ := exists_mem_unwindMaterial db r
        rw [hnil] at hrow
        simp at hrow)
    | cons row rest =>
      have hrowmem : row ∈ unwindMaterial db r := by
        rw [hu]
        exact List.mem_cons_self row rest
      obtain ⟨m, hm⟩ := mem_unwindMaterial_shape hrowmem
      have hadm : (u.role == Role.admin) = false := by
        cases hr : u.role == Role.admin
        · rfl
        · exact absurd (by simpa using hr) hnadm
      cases htd : db.teams.find? (fun x => x._id == r.team) with
      | none =>
        simp only [getRackById, hv, hrows, hu, hm, rackRowOf, htd]
        simp [hadm]
      | some t =>
        have h1 : (t.teamLeader == some u._id) = false := by
          simpa using (hnrel t htd).1
        have h2 : u._id ∉ t.members := (hnrel t htd).2
        simp only [getRackById, hv, hrows, hu, hm, rackRowOf, htd]
        simp [hadm, h1, h2]

theorem getRackById_error_taxonomy_witness :
    ((getRackById wDb wAdmin "zzz").resp.status = 400) ∧
    ((getRackById wDb wAdmin wFileId).resp.status = 404) ∧
    ((getRackById wDb wOutsider wRackBId).resp.status = 403) :=
  ⟨(getRackById_error_taxonomy wDb wAdmin "zzz" wRack).1 (by decide),
    (getRackById_error_taxonomy wDb wAdmin wFileId wRack).2.1 (by decide)
      (by decide),
    (getRackById_error_taxonomy wDb wOutsider wRackBId wRackB).2.2 (by decide)
      (by decide) (by decide) (by decide)⟩

end PAS
